import Mathlib

/-!
Verification of the TrafficGen-AI policy evaluation core.

This file is a shallow embedding of the three engine modules of the
repository — `modules/optimizer.py` (`MultiObjectiveOptimizer`),
`modules/evaluator.py` (`PerformanceEvaluator`) and
`modules/analytics.py` (`StatisticalAnalyzer`) — together with theorems
settling the behavioural claims about them.

Conventions of the embedding:
- Python float values are modelled as rationals (`ℚ`).
- Python dicts carrying metric values are modelled as association lists
  `List (String × ℚ)`; `dget m k d` models `m.get(k, d)` (first matching
  key wins, as in a dict where keys are unique).
- A Python function that can raise (`KeyError`, `ValueError`) is modelled
  as returning an `Option`, with `none` for the raising outcome.
- `scipy.stats.f_oneway` is external to the repository; functions calling
  it take the F/p computation as an explicit function parameter.
-/

namespace TrafficGen

/-- A metrics dictionary: association list from metric key to value. -/
abbrev Metrics := List (String × ℚ)

/-- Lookup `dget m key d` models the Python call `m.get(key, d)` on a metrics dict. -/
def dget (m : Metrics) (key : String) (d : ℚ) : ℚ :=
  match m.find? (fun p => p.1 == key) with
  | some p => p.2
  | none => d

namespace MultiObjectiveOptimizer

/-- Field `self.objectives` from `MultiObjectiveOptimizer.__init__`. -/
def objectives : List String :=
  ["average_delay", "co2_emissions", "throughput", "average_speed"]

/-- Field `self.minimize_objectives` from `MultiObjectiveOptimizer.__init__`. -/
def minimize_objectives : List String := ["average_delay", "co2_emissions"]

/-- Field `self.maximize_objectives` from `MultiObjectiveOptimizer.__init__`. -/
def maximize_objectives : List String := ["throughput", "average_speed"]

/-- The objective-vector row built for one policy: `metrics.get(obj, 0)`
for each objective, negated for maximization objectives. -/
def objVector (m : Metrics) : List ℚ :=
  objectives.map fun obj =>
    let value := dget m obj 0
    if obj ∈ maximize_objectives then -value else value

/-- Method `MultiObjectiveOptimizer._dominates`:
`np.all(a <= b) and np.any(a < b)` on equal-length vectors
(`np` broadcasts elementwise; we pair componentwise via `zip`). -/
def dominatesB (solution_a solution_b : List ℚ) : Bool :=
  ((solution_a.zip solution_b).all fun p => p.1 ≤ p.2) &&
    ((solution_a.zip solution_b).any fun p => p.1 < p.2)

/-- Method `MultiObjectiveOptimizer.calculate_pareto_frontier`: a policy is kept
iff no other index `j ≠ i` dominates it. -/
def calculate_pareto_frontier (policies_metrics : List (String × Metrics)) :
    List String :=
  let policy_names := policies_metrics.map Prod.fst
  let objective_matrix := policies_metrics.map fun p => objVector p.2
  let n := policies_metrics.length
  ((List.range n).filter fun i =>
    ! ((List.range n).any fun j =>
      (j != i) && dominatesB (objective_matrix.getD j []) (objective_matrix.getD i []))).map
    fun i => policy_names.getD i ""

end MultiObjectiveOptimizer

namespace MultiObjectiveOptimizer

/-- The Python builtin `max(values)` on a list (`none` models the `ValueError`
raised on an empty list). -/
def pymax : List ℚ → Option ℚ
  | [] => none
  | x :: xs => some (xs.foldl (fun a b => if a < b then b else a) x)

/-- The Python builtin `min(values)` on a list (`none` models the `ValueError`
raised on an empty list). -/
def pymin : List ℚ → Option ℚ
  | [] => none
  | x :: xs => some (xs.foldl (fun a b => if b < a then b else a) x)

/-- The default-reference-point loop of `calculate_hypervolume`
(lines 82-90): worst value × 1.1 for minimize objectives, best value × 0.9
for maximize objectives; `none` if the policy set is empty (the Python
builtins `max`/`min` raise on an empty sequence). -/
def refPointLoop (policies_metrics : List (String × Metrics)) :
    List String → Option (List ℚ)
  | [] => some []
  | obj :: rest =>
    let values := policies_metrics.map fun p => dget p.2 obj 0
    let v := if obj ∈ minimize_objectives
      then (pymax values).map (· * (11 / 10))
      else (pymin values).map (· * (9 / 10))
    match v, refPointLoop policies_metrics rest with
    | some x, some xs => some (x :: xs)
    | _, _ => none

/-- Method `MultiObjectiveOptimizer.calculate_hypervolume`: computes the default
reference point when none is supplied, then ignores it and returns the
proxy `|pareto_front| / |all_policies|` (0 if the frontier is empty). -/
def calculate_hypervolume (policies_metrics : List (String × Metrics))
    (reference_point : Option (List ℚ)) : Option ℚ :=
  let rp := match reference_point with
    | some r => some r
    | none => refPointLoop policies_metrics objectives
  match rp with
  | none => none
  | some _ =>
    let pareto_policies := calculate_pareto_frontier policies_metrics
    if pareto_policies.isEmpty then some 0
    else some ((pareto_policies.length : ℚ) / (policies_metrics.length : ℚ))

end MultiObjectiveOptimizer

namespace MultiObjectiveOptimizer

/-- The dominance-count pass of `rank_policies_by_dominance`
(lines 113-135): for each policy, how many other policies dominate it. -/
def dominance_count (policies_metrics : List (String × Metrics)) :
    List (String × ℕ) :=
  policies_metrics.map fun p =>
    (p.1, (policies_metrics.filter fun q =>
      (q.1 != p.1) && dominatesB (objVector q.2) (objVector p.2)).length)

/-- The rank-assignment loop of `rank_policies_by_dominance`
(lines 141-145), instrumented to keep the dominance count of each policy next
to its assigned rank: `current_rank` starts at 1 and is reset to `i + 1`
whenever the count strictly increases over the previous sorted entry. -/
def rankLoop : ℕ → ℕ → ℕ → List (String × ℕ) → List (String × ℕ × ℕ)
  | _, _, _, [] => []
  | i, prev, current_rank, (policy, count) :: rest =>
    let r := if 0 < i ∧ prev < count then i + 1 else current_rank
    (policy, count, r) :: rankLoop (i + 1) count r rest

/-- The `(policy, dominance count, rank)` triples produced by sorting the
dominance counts ascending (the stable Python `sorted`) and running the
rank-assignment loop. -/
def ranked_triples (policies_metrics : List (String × Metrics)) :
    List (String × ℕ × ℕ) :=
  rankLoop 0 0 1
    ((dominance_count policies_metrics).mergeSort fun a b => a.2 ≤ b.2)

/-- Method `MultiObjectiveOptimizer.rank_policies_by_dominance`: the final
`{policy: rank}` association (the dominance count is dropped). -/
def rank_policies_by_dominance (policies_metrics : List (String × Metrics)) :
    List (String × ℕ) :=
  (ranked_triples policies_metrics).map fun t => (t.1, t.2.2)

end MultiObjectiveOptimizer

namespace PerformanceEvaluator

/-- The `lower_is_better` list of `PerformanceEvaluator._is_improvement`. -/
def lower_is_better : List String :=
  ["average_delay", "co2_emissions", "total_travel_time"]

/-- The `higher_is_better` list of `PerformanceEvaluator._is_improvement`. -/
def higher_is_better : List String := ["throughput", "average_speed"]

/-- Method `PerformanceEvaluator._is_improvement`: sign of the change keyed to
the direction of the metric; `false` for unknown metrics. -/
def is_improvement (metric_key : String) (change : ℚ) : Bool :=
  if metric_key ∈ lower_is_better then change < 0
  else if metric_key ∈ higher_is_better then 0 < change
  else false

/-- One per-metric comparison record built by `compare_policies`. -/
structure Comparison where
  baseline : ℚ
  policy : ℚ
  absolute_change : ℚ
  percent_change : ℚ
  is_improvement : Bool
deriving DecidableEq

/-- The percent-change rule of `compare_policies` (lines 105-108):
guarded division by the baseline, with the explicit zero-baseline edge
rule instead of a division-by-zero failure. -/
def percent_change_of (baseline_value policy_value : ℚ) : ℚ :=
  if baseline_value ≠ 0 then (policy_value - baseline_value) / baseline_value * 100
  else if policy_value = 0 then 0 else 100

/-- Method `PerformanceEvaluator.compare_policies`: iterates the baseline keys;
`none` models the `KeyError` raised when a baseline key is absent from
the policy metrics. -/
def compare_policies (baseline_metrics policy_metrics : Metrics) :
    Option (List (String × Comparison)) :=
  match baseline_metrics with
  | [] => some []
  | p :: rest =>
    match policy_metrics.find? (fun q => q.1 == p.1),
          compare_policies rest policy_metrics with
    | some q, some comps =>
      some ((p.1, { baseline := p.2, policy := q.2,
                    absolute_change := q.2 - p.2,
                    percent_change := percent_change_of p.2 q.2,
                    is_improvement := is_improvement p.1 (q.2 - p.2) }) :: comps)
    | _, _ => none

/-- The default equal weights of `calculate_composite_score`. -/
def default_weights : List (String × ℚ) :=
  [("average_delay", 1 / 4), ("throughput", 1 / 4),
   ("co2_emissions", 1 / 4), ("average_speed", 1 / 4)]

/-- Delay sub-score (lines 171-172): pre-clamp default 150, clamp to
[0, 300], inverted (lower is better). -/
def normalized_average_delay (metrics : Metrics) : ℚ :=
  let delay := min (max (dget metrics "average_delay" 150) 0) 300
  (300 - delay) / 300 * 100

/-- Throughput sub-score (lines 175-176): pre-clamp default 0, clamp to
[0, 2000], higher is better. -/
def normalized_throughput (metrics : Metrics) : ℚ :=
  let throughput := min (max (dget metrics "throughput" 0) 0) 2000
  throughput / 2000 * 100

/-- Emissions sub-score (lines 179-180): pre-clamp default 500, clamp to
[0, 1000], inverted (lower is better). -/
def normalized_co2_emissions (metrics : Metrics) : ℚ :=
  let emissions := min (max (dget metrics "co2_emissions" 500) 0) 1000
  (1000 - emissions) / 1000 * 100

/-- Speed sub-score (lines 183-184): pre-clamp default 0, clamp to
[0, 60], higher is better. -/
def normalized_average_speed (metrics : Metrics) : ℚ :=
  let speed := min (max (dget metrics "average_speed" 0) 0) 60
  speed / 60 * 100

/-- The Python call `round(x, 2)`: round `100·x` to the nearest integer. -/
def round2 (x : ℚ) : ℚ := ((round (x * 100) : ℤ) : ℚ) / 100

/-- Method `PerformanceEvaluator.calculate_composite_score`: weighted sum of the
four clamped sub-scores, rounded to 2 decimals; `none` weights selects
the default equal weights. -/
def calculate_composite_score (metrics : Metrics)
    (weights : Option (List (String × ℚ))) : ℚ :=
  let w := weights.getD default_weights
  let normalized : Metrics :=
    [("average_delay", normalized_average_delay metrics),
     ("throughput", normalized_throughput metrics),
     ("co2_emissions", normalized_co2_emissions metrics),
     ("average_speed", normalized_average_speed metrics)]
  round2 ((w.map fun p => dget normalized p.1 0 * p.2).sum)

/-- The `metric_map` of `identify_best_policy` (lines 237-242). -/
def metric_map : List (String × String) :=
  [("delay", "average_delay"), ("emissions", "co2_emissions"),
   ("throughput", "throughput"), ("speed", "average_speed")]

/-- Lookup `m.get(key, d)` on a string-to-string dict. -/
def sget (m : List (String × String)) (key d : String) : String :=
  match m.find? (fun p => p.1 == key) with
  | some p => p.2
  | none => d

/-- The Python call `max(values, key=values.get)`: the first key attaining the
maximum value (`none` on an empty dict). -/
def argmax_first : List (String × ℚ) → Option String
  | [] => none
  | x :: xs =>
    some ((xs.foldl (fun best p => if best.2 < p.2 then p else best) x).1)

/-- Strict order on metric values fetched with a float-infinity default:
`none` models the infinite default for a missing key. -/
def ltInf (a b : Option ℚ) : Bool :=
  match a, b with
  | some x, some y => x < y
  | some _, none => true
  | none, _ => false

/-- The Python call `min(values, key=values.get)` over possibly-infinite values:
the first key attaining the minimum (`none` on an empty dict). -/
def argmin_first : List (String × Option ℚ) → Option String
  | [] => none
  | x :: xs =>
    some ((xs.foldl (fun best p => if ltInf p.2 best.2 then p else best) x).1)

/-- Method `PerformanceEvaluator.identify_best_policy`: `none` only for an empty
mapping; `composite` ranks by composite score descending; other
objectives map through `metric_map` (default `average_delay`) and rank by
the raw metric, with a missing key defaulting to float
infinity for lower-is-better metrics and 0 otherwise. -/
def identify_best_policy (results_dict : List (String × Metrics))
    (objective : String) : Option String :=
  if results_dict = [] then none
  else if objective = "composite" then
    argmax_first (results_dict.map fun p =>
      (p.1, calculate_composite_score p.2 none))
  else
    let metric_key := sget metric_map objective "average_delay"
    if metric_key ∈ ["average_delay", "co2_emissions", "total_travel_time"] then
      argmin_first (results_dict.map fun p =>
        (p.1, (p.2.find? (fun q => q.1 == metric_key)).map Prod.snd))
    else
      argmax_first (results_dict.map fun p => (p.1, dget p.2 metric_key 0))

end PerformanceEvaluator

namespace StatisticalAnalyzer

/-- Field `self.confidence_level` from `StatisticalAnalyzer.__init__`. -/
def confidence_level : ℚ := 95 / 100

/-- The `metrics_list` local of `perform_anova`. -/
def metrics_list : List String :=
  ["average_delay", "throughput", "co2_emissions", "average_speed"]

/-- One per-metric ANOVA result entry. -/
structure AnovaEntry where
  f_statistic : ℚ
  p_value : ℚ
  significant : Bool
  interpretation : String
deriving DecidableEq

/-- Method `StatisticalAnalyzer._interpret_anova`. -/
def interpret_anova (p_value : ℚ) : String :=
  if p_value < 1 / 1000 then
    "Highly significant difference between policies (p < 0.001)"
  else if p_value < 1 / 100 then
    "Very significant difference between policies (p < 0.01)"
  else if p_value < 5 / 100 then
    "Significant difference between policies (p < 0.05)"
  else
    "No significant difference between policies (p >= 0.05)"

/-- Method `StatisticalAnalyzer.perform_anova`. `results` is the nested
policy-to-scenario-to-metrics mapping, carried as the per-policy
list of per-scenario metrics dicts in `values()` order;
`f_oneway` is the external `scipy.stats.f_oneway` call, abstracted as a
parameter returning `(f_statistic, p_value)`. The entry for a metric is
produced only when there are more than one policy group and every group
is non-empty; otherwise the metric is skipped. -/
def perform_anova (f_oneway : List (List ℚ) → ℚ × ℚ)
    (results : List (String × List Metrics)) : List (String × AnovaEntry) :=
  metrics_list.filterMap fun metric =>
    let policy_data := results.map fun pr => pr.2.map fun m => dget m metric 0
    if 1 < policy_data.length ∧ ∀ data ∈ policy_data, 0 < data.length then
      let fp := f_oneway policy_data
      some (metric,
        { f_statistic := fp.1, p_value := fp.2,
          significant := fp.2 < 1 - confidence_level,
          interpretation := interpret_anova fp.2 })
    else none

end StatisticalAnalyzer

section RankExample

open MultiObjectiveOptimizer

/-- Test vector for the ranking claims: two tied non-dominated policies
and one policy dominated by both. -/
def exC1 : List (String × Metrics) :=
  [("A", [("average_delay", 1)]), ("B", [("average_delay", 1)]),
   ("C", [("average_delay", 2)])]

end RankExample

section DominanceLemmas

open MultiObjectiveOptimizer

/-- Pointwise characterization of `dominatesB`. -/
lemma dominatesB_iff (a b : List ℚ) :
    dominatesB a b = true ↔
      ((∀ i, (h1 : i < a.length) → (h2 : i < b.length) → a[i] ≤ b[i]) ∧
       (∃ i, ∃ (h1 : i < a.length) (h2 : i < b.length), a[i] < b[i])) := by
  unfold dominatesB
  rw [Bool.and_eq_true, List.all_eq_true, List.any_eq_true]
  constructor
  · rintro ⟨hall, ⟨x, hx, hlt⟩⟩
    constructor
    · intro i h1 h2
      have hmem : (a[i], b[i]) ∈ a.zip b := by
        have hlen : i < (a.zip b).length := by
          simp [List.length_zip]; omega
        have := List.getElem_mem hlen
        simpa [List.getElem_zip] using this
      simpa using hall _ hmem
    · obtain ⟨i, hlen, hget⟩ := List.mem_iff_getElem.mp hx
      have hia : i < a.length := by
        simp [List.length_zip] at hlen; omega
      have hib : i < b.length := by
        simp [List.length_zip] at hlen; omega
      refine ⟨i, hia, hib, ?_⟩
      have : (a.zip b)[i] = (a[i], b[i]) := List.getElem_zip
      rw [this] at hget
      rw [← hget] at hlt
      simpa using hlt
  · rintro ⟨hle, ⟨i, h1, h2, hlt⟩⟩
    constructor
    · rintro ⟨x, y⟩ hxy
      obtain ⟨j, hlen, hget⟩ := List.mem_iff_getElem.mp hxy
      have hja : j < a.length := by
        simp [List.length_zip] at hlen; omega
      have hjb : j < b.length := by
        simp [List.length_zip] at hlen; omega
      have : (a.zip b)[j] = (a[j], b[j]) := List.getElem_zip
      rw [this] at hget
      have hx : x = a[j] := by
        have := congrArg Prod.fst hget
        simpa using this.symm
      have hy : y = b[j] := by
        have := congrArg Prod.snd hget
        simpa using this.symm
      subst hx; subst hy
      simpa using hle j hja hjb
    · refine ⟨(a[i], b[i]), ?_, by simpa using hlt⟩
      have hlen : i < (a.zip b).length := by
        simp [List.length_zip]; omega
      have := List.getElem_mem hlen
      simpa [List.getElem_zip] using this

/-- Dominance is irreflexive. -/
lemma dominatesB_self (a : List ℚ) : dominatesB a a = false := by
  by_contra h
  have h' : dominatesB a a = true := by
    cases hb : dominatesB a a
    · exact absurd hb h
    · rfl
  obtain ⟨-, i, h1, h2, hlt⟩ := (dominatesB_iff a a).mp h'
  exact absurd hlt (lt_irrefl _)

/-- Dominance is asymmetric. -/
lemma dominatesB_asymm (a b : List ℚ) (h : dominatesB a b = true) :
    dominatesB b a = false := by
  obtain ⟨hle, i, h1, h2, hlt⟩ := (dominatesB_iff a b).mp h
  by_contra hc
  have hc' : dominatesB b a = true := by
    cases hb : dominatesB b a
    · exact absurd hb hc
    · rfl
  obtain ⟨hle', -⟩ := (dominatesB_iff b a).mp hc'
  have := hle' i h2 h1
  exact absurd (lt_of_lt_of_le hlt this) (lt_irrefl _)

/-- Dominance is transitive on equal-length vectors. -/
lemma dominatesB_trans {a b c : List ℚ}
    (hab : a.length = b.length) (hbc : b.length = c.length)
    (h1 : dominatesB a b = true) (h2 : dominatesB b c = true) :
    dominatesB a c = true := by
  obtain ⟨hle1, i, hi1, hi2, hlt1⟩ := (dominatesB_iff a b).mp h1
  obtain ⟨hle2, -⟩ := (dominatesB_iff b c).mp h2
  refine (dominatesB_iff a c).mpr ⟨?_, ?_⟩
  · intro j hj1 hj2
    have hjb : j < b.length := by omega
    exact le_trans (hle1 j hj1 hjb) (hle2 j hjb hj2)
  · have hic : i < c.length := by omega
    exact ⟨i, hi1, hic, lt_of_lt_of_le hlt1 (hle2 i hi2 hic)⟩

end DominanceLemmas

section ParetoLemmas

open MultiObjectiveOptimizer

/-- Every non-empty finite family of equal-length objective vectors has a
member dominated by no member (a minimal element of the strict partial
order induced by `dominatesB`). -/
lemma exists_nondominated (L : ℕ) :
    ∀ (vecs : List (List ℚ)), (∀ v ∈ vecs, v.length = L) → vecs ≠ [] →
      ∃ v ∈ vecs, ∀ w ∈ vecs, dominatesB w v = false := by
  intro vecs
  induction vecs with
  | nil => intro _ hne; exact absurd rfl hne
  | cons v vs ih =>
    intro hlen _
    cases vs with
    | nil =>
      refine ⟨v, List.mem_singleton_self v, ?_⟩
      intro w hw
      rw [List.mem_singleton.mp hw]
      exact dominatesB_self v
    | cons u us =>
      obtain ⟨m, hm, hmin⟩ :=
        ih (fun w hw => hlen w (List.mem_cons_of_mem v hw)) (List.cons_ne_nil u us)
      by_cases hd : dominatesB v m = true
      · refine ⟨v, List.mem_cons_self v _, ?_⟩
        intro w hw
        rcases List.mem_cons.mp hw with hwv | hwtail
        · rw [hwv]; exact dominatesB_self v
        · cases hwv : dominatesB w v with
          | false => rfl
          | true =>
            have hwm : dominatesB w m = true := by
              refine dominatesB_trans ?_ ?_ hwv hd
              · rw [hlen w (List.mem_cons_of_mem v hwtail),
                    hlen v (List.mem_cons_self v _)]
              · rw [hlen v (List.mem_cons_self v _),
                    hlen m (List.mem_cons_of_mem v hm)]
            rw [hmin w hwtail] at hwm
            exact absurd hwm (by simp)
      · refine ⟨m, List.mem_cons_of_mem v hm, ?_⟩
        intro w hw
        rcases List.mem_cons.mp hw with hwv | hwtail
        · rw [hwv]
          cases hvm : dominatesB v m with
          | false => rfl
          | true => exact absurd hvm hd
        · exact hmin w hwtail

/-- Every objective vector has exactly 4 components. -/
lemma objVector_length (m : Metrics) : (objVector m).length = 4 := by
  simp [objVector, objectives]

/-- The Pareto frontier of a non-empty policy set is non-empty. -/
lemma calculate_pareto_frontier_ne_nil
    (pm : List (String × Metrics)) (hne : pm ≠ []) :
    calculate_pareto_frontier pm ≠ [] := by
  have hmatlen : (pm.map fun p => objVector p.2).length = pm.length :=
    List.length_map _ _
  have hv : ∀ v ∈ pm.map fun p => objVector p.2, v.length = 4 := by
    intro v hvmem
    obtain ⟨p, -, hp⟩ := List.mem_map.mp hvmem
    rw [← hp]; exact objVector_length p.2
  have hmatne : (pm.map fun p => objVector p.2) ≠ [] := by
    simpa using hne
  obtain ⟨v, hvmem, hmin⟩ := exists_nondominated 4 _ hv hmatne
  obtain ⟨i, hi, hgeti⟩ := List.mem_iff_getElem.mp hvmem
  have hi2 : i < pm.length := by rw [hmatlen] at hi; exact hi
  have hgetD : ∀ j, ∀ hb : j < (pm.map fun p => objVector p.2).length,
      (pm.map fun p => objVector p.2).getD j [] =
        (pm.map fun p => objVector p.2).get ⟨j, hb⟩ := by
    intro j hb
    rw [List.getD_eq_getElem?_getD, List.getElem?_eq_getElem hb]
    rfl
  have hin : i ∈ (List.range pm.length).filter fun i =>
      ! ((List.range pm.length).any fun j =>
        (j != i) && dominatesB ((pm.map fun p => objVector p.2).getD j [])
          ((pm.map fun p => objVector p.2).getD i [])) := by
    rw [List.mem_filter]
    refine ⟨List.mem_range.mpr hi2, ?_⟩
    rw [Bool.not_eq_true']
    rw [List.any_eq_false]
    intro j hj
    have hjlt : j < (pm.map fun p => objVector p.2).length := by
      have := List.mem_range.mp hj
      omega
    rw [hgetD j hjlt, hgetD i hi]
    have hdom : dominatesB ((pm.map fun p => objVector p.2).get ⟨j, hjlt⟩)
        ((pm.map fun p => objVector p.2).get ⟨i, hi⟩) = false := by
      have hgv : (pm.map fun p => objVector p.2).get ⟨i, hi⟩ = v := hgeti
      rw [hgv]
      exact hmin _ (List.get_mem _ _ hjlt)
    rw [hdom, Bool.and_false]
    simp
  have hmm : ((pm.map Prod.fst).getD i "") ∈ calculate_pareto_frontier pm := by
    unfold calculate_pareto_frontier
    exact List.mem_map_of_mem _ hin
  exact List.ne_nil_of_mem hmm

end ParetoLemmas

section HypervolumeLemmas

open MultiObjectiveOptimizer

/-- The reference-point loop succeeds whenever the policy set is non-empty. -/
lemma refPointLoop_isSome (pm : List (String × Metrics)) (hne : pm ≠ []) :
    ∀ objs : List String, ∃ r, refPointLoop pm objs = some r := by
  intro objs
  induction objs with
  | nil => exact ⟨[], rfl⟩
  | cons obj rest ih =>
    obtain ⟨r, hr⟩ := ih
    obtain ⟨p, ps, hpm⟩ := List.exists_cons_of_ne_nil hne
    have hv : ∃ x, (if obj ∈ minimize_objectives
        then (pymax (pm.map fun q => dget q.2 obj 0)).map (· * (11 / 10))
        else (pymin (pm.map fun q => dget q.2 obj 0)).map (· * (9 / 10))) = some x := by
      by_cases hmin : obj ∈ minimize_objectives
      · subst hpm; simp [hmin, pymax]
      · subst hpm; simp [hmin, pymin]
    obtain ⟨x, hx⟩ := hv
    refine ⟨x :: r, ?_⟩
    unfold refPointLoop
    simp only [hx, hr]

end HypervolumeLemmas

section RankLemmas

open MultiObjectiveOptimizer

/-- Entries of the rank loop come from its input list. -/
lemma mem_of_mem_rankLoop :
    ∀ (l : List (String × ℕ)) (i prev cur : ℕ) (p : String) (c r : ℕ),
      (p, c, r) ∈ rankLoop i prev cur l → (p, c) ∈ l := by
  intro l
  induction l with
  | nil => intro i prev cur p c r h; simp [rankLoop] at h
  | cons hd tl ih =>
    intro i prev cur p c r h
    obtain ⟨hd1, hd2⟩ := hd
    rw [rankLoop] at h
    rcases List.mem_cons.mp h with heq | htl
    · simp only [Prod.mk.injEq] at heq
      obtain ⟨e1, e2, -⟩ := heq
      rw [e1, e2]
      exact List.mem_cons_self _ _
    · exact List.mem_cons_of_mem _ (ih _ _ _ _ _ _ htl)

/-- In a run of the rank loop whose previous count equals `c` and whose
remaining entries all have counts `≥ c`, every entry with count exactly
`c` is assigned the incoming `current_rank`. -/
lemma rankLoop_rank_of_count_eq :
    ∀ (l : List (String × ℕ)) (i cur c : ℕ),
      l.Pairwise (fun a b => a.2 ≤ b.2) → (∀ e ∈ l, c ≤ e.2) →
      ∀ (q : String) (r : ℕ), (q, c, r) ∈ rankLoop i c cur l → r = cur := by
  intro l
  induction l with
  | nil => intro i cur c _ _ q r h; simp [rankLoop] at h
  | cons hd tl ih =>
    intro i cur c hpw hge q r h
    obtain ⟨hd1, hd2⟩ := hd
    have hc0 : c ≤ hd2 := hge _ (List.mem_cons_self _ _)
    rw [rankLoop] at h
    rcases List.mem_cons.mp h with heq | htl
    · simp only [Prod.mk.injEq] at heq
      obtain ⟨-, hcc, hr⟩ := heq
      rw [hr, if_neg]
      rintro ⟨-, hlt⟩
      rw [hcc] at hlt
      exact absurd hlt (lt_irrefl _)
    · by_cases hcc : hd2 = c
      · subst hcc
        have hcur : (if 0 < i ∧ hd2 < hd2 then i + 1 else cur) = cur := by
          rw [if_neg]
          rintro ⟨-, hlt⟩
          exact absurd hlt (lt_irrefl _)
        rw [hcur] at htl
        exact ih (i + 1) cur hd2 hpw.of_cons
          (fun e he => (List.pairwise_cons.mp hpw).1 e he) q r htl
      · have hlt : c < hd2 := lt_of_le_of_ne hc0 (fun h' => hcc h'.symm)
        have hmem : (q, c) ∈ tl := mem_of_mem_rankLoop _ _ _ _ _ _ _ htl
        have : hd2 ≤ c := (List.pairwise_cons.mp hpw).1 (q, c) hmem
        omega

/-- In a run of the rank loop on a sorted list, any two entries carrying
the same dominance count are assigned the same rank. -/
lemma rankLoop_ties_share_rank :
    ∀ (l : List (String × ℕ)) (i prev cur : ℕ),
      l.Pairwise (fun a b => a.2 ≤ b.2) →
      ∀ (p q : String) (c rp rq : ℕ),
        (p, c, rp) ∈ rankLoop i prev cur l →
        (q, c, rq) ∈ rankLoop i prev cur l → rp = rq := by
  intro l
  induction l with
  | nil => intro i prev cur _ p q c rp rq hp _; simp [rankLoop] at hp
  | cons hd tl ih =>
    intro i prev cur hpw p q c rp rq hp hq
    obtain ⟨hd1, hd2⟩ := hd
    rw [rankLoop] at hp hq
    have hgetl : ∀ e ∈ tl, hd2 ≤ e.2 :=
      fun e he => (List.pairwise_cons.mp hpw).1 e he
    rcases List.mem_cons.mp hp with hpeq | hptl
    · simp only [Prod.mk.injEq] at hpeq
      obtain ⟨-, ec, erp⟩ := hpeq
      rcases List.mem_cons.mp hq with hqeq | hqtl
      · simp only [Prod.mk.injEq] at hqeq
        obtain ⟨-, -, erq⟩ := hqeq
        rw [erp, erq]
      · subst ec
        have hrq := rankLoop_rank_of_count_eq tl (i + 1)
          (if 0 < i ∧ prev < c then i + 1 else cur) c hpw.of_cons hgetl q rq hqtl
        rw [hrq, erp]
    · rcases List.mem_cons.mp hq with hqeq | hqtl
      · simp only [Prod.mk.injEq] at hqeq
        obtain ⟨-, ec, erq⟩ := hqeq
        subst ec
        have hrp := rankLoop_rank_of_count_eq tl (i + 1)
          (if 0 < i ∧ prev < c then i + 1 else cur) c hpw.of_cons hgetl p rp hptl
        rw [hrp, erq]
      · exact ih (i + 1) hd2 (if 0 < i ∧ prev < hd2 then i + 1 else cur)
          hpw.of_cons p q c rp rq hptl hqtl

/-- The sorted dominance-count list is pairwise nondecreasing. -/
lemma sorted_counts_pairwise (pm : List (String × Metrics)) :
    ((dominance_count pm).mergeSort fun a b => a.2 ≤ b.2).Pairwise
      (fun a b => a.2 ≤ b.2) := by
  have h := @List.sorted_mergeSort (String × ℕ)
    (fun a b => (a.2 ≤ b.2 : Bool))
    (fun a b c hab hbc => by
      simp only [decide_eq_true_eq] at *; omega)
    (fun a b => by
      simp only [Bool.or_eq_true, decide_eq_true_eq]; omega)
    (dominance_count pm)
  exact h.imp (fun hab => by simpa using hab)

end RankLemmas

section RankExampleLemmas

open MultiObjectiveOptimizer

/-- Concrete evaluation of the ranking pipeline on `exC1`:
dominance counts are A↦0, B↦0, C↦2, and the assigned ranks are 1, 1, 3. -/
lemma ranked_triples_exC1 :
    ranked_triples exC1 = [("A", 0, 1), ("B", 0, 1), ("C", 2, 3)] := by
  have hdc : dominance_count exC1 = [("A", 0), ("B", 0), ("C", 2)] := by decide
  unfold ranked_triples
  rw [hdc, List.mergeSort_of_sorted (by decide)]
  decide

end RankExampleLemmas

section EvaluatorLemmas

open PerformanceEvaluator

/-- Comparing a value with itself yields zero percent change. -/
lemma percent_change_of_self (v : ℚ) : percent_change_of v v = 0 := by
  unfold percent_change_of
  by_cases hv : v ≠ 0
  · rw [if_pos hv, sub_self, zero_div, zero_mul]
  · rw [if_neg hv, if_pos]
    push_neg at hv
    exact hv

/-- A zero change is never an improvement, whatever the metric. -/
lemma is_improvement_zero (k : String) : is_improvement k 0 = false := by
  unfold is_improvement
  split_ifs <;> simp

/-- In a dict with distinct keys, looking up the key of a member entry
finds that entry. -/
lemma find?_eq_self_of_nodup :
    ∀ (M : Metrics), (M.map Prod.fst).Nodup → ∀ p ∈ M,
      M.find? (fun q => q.1 == p.1) = some p := by
  intro M
  induction M with
  | nil => intro _ p hp; simp at hp
  | cons hd tl ih =>
    intro hnd p hp
    rw [List.map_cons, List.nodup_cons] at hnd
    rcases List.mem_cons.mp hp with hphd | hptl
    · subst hphd
      rw [List.find?_cons_of_pos]
      simp
    · have hne : hd.1 ≠ p.1 := by
        intro hcontra
        exact hnd.1 (hcontra ▸ List.mem_map_of_mem Prod.fst hptl)
      rw [List.find?_cons_of_neg]
      · exact ih hnd.2 p hptl
      · simp [hne]

/-- Evaluation of `compare_policies` when every baseline entry is found
verbatim in the policy metrics. -/
lemma compare_policies_of_find :
    ∀ (rest M : Metrics),
      (∀ p ∈ rest, M.find? (fun q => q.1 == p.1) = some p) →
      compare_policies rest M =
        some (rest.map fun p => (p.1, ⟨p.2, p.2, 0, 0, false⟩)) := by
  intro rest M
  induction rest with
  | nil => intro _; rfl
  | cons p tl ih =>
    intro hfind
    have hp := hfind p (List.mem_cons_self _ _)
    have htl := ih fun q hq => hfind q (List.mem_cons_of_mem _ hq)
    rw [compare_policies, hp, htl]
    dsimp only
    rw [List.map_cons, sub_self, percent_change_of_self, is_improvement_zero]

/-- The delay sub-score is bounded in [0, 100]. -/
lemma normalized_average_delay_bounds (m : Metrics) :
    0 ≤ normalized_average_delay m ∧ normalized_average_delay m ≤ 100 := by
  unfold normalized_average_delay
  have h0 : (0 : ℚ) ≤ min (max (dget m "average_delay" 150) 0) 300 :=
    le_min (le_max_right _ 0) (by norm_num)
  have h1 : min (max (dget m "average_delay" 150) 0) 300 ≤ 300 :=
    min_le_right _ _
  constructor <;> · simp only []; linarith

/-- The throughput sub-score is bounded in [0, 100]. -/
lemma normalized_throughput_bounds (m : Metrics) :
    0 ≤ normalized_throughput m ∧ normalized_throughput m ≤ 100 := by
  unfold normalized_throughput
  have h0 : (0 : ℚ) ≤ min (max (dget m "throughput" 0) 0) 2000 :=
    le_min (le_max_right _ 0) (by norm_num)
  have h1 : min (max (dget m "throughput" 0) 0) 2000 ≤ 2000 :=
    min_le_right _ _
  constructor <;> · simp only []; linarith

/-- The emissions sub-score is bounded in [0, 100]. -/
lemma normalized_co2_emissions_bounds (m : Metrics) :
    0 ≤ normalized_co2_emissions m ∧ normalized_co2_emissions m ≤ 100 := by
  unfold normalized_co2_emissions
  have h0 : (0 : ℚ) ≤ min (max (dget m "co2_emissions" 500) 0) 1000 :=
    le_min (le_max_right _ 0) (by norm_num)
  have h1 : min (max (dget m "co2_emissions" 500) 0) 1000 ≤ 1000 :=
    min_le_right _ _
  constructor <;> · simp only []; linarith

/-- The speed sub-score is bounded in [0, 100]. -/
lemma normalized_average_speed_bounds (m : Metrics) :
    0 ≤ normalized_average_speed m ∧ normalized_average_speed m ≤ 100 := by
  unfold normalized_average_speed
  have h0 : (0 : ℚ) ≤ min (max (dget m "average_speed" 0) 0) 60 :=
    le_min (le_max_right _ 0) (by norm_num)
  have h1 : min (max (dget m "average_speed" 0) 0) 60 ≤ 60 :=
    min_le_right _ _
  constructor <;> · simp only []; linarith

/-- Unfolding of the composite score at the default weights. -/
lemma calculate_composite_score_eq (m : Metrics) :
    calculate_composite_score m none =
      round2 (normalized_average_delay m * (1 / 4) +
        (normalized_throughput m * (1 / 4) +
          (normalized_co2_emissions m * (1 / 4) +
            (normalized_average_speed m * (1 / 4) + 0)))) := by
  rfl

/-- On a non-empty mapping, `identify_best_policy` always produces a
policy name, whatever the objective. -/
lemma identify_best_policy_isSome (r : String × Metrics)
    (rs : List (String × Metrics)) (objective : String) :
    ∃ s, identify_best_policy (r :: rs) objective = some s := by
  unfold identify_best_policy
  rw [if_neg (List.cons_ne_nil r rs)]
  by_cases hobj : objective = "composite"
  · rw [if_pos hobj, List.map_cons]
    exact ⟨_, rfl⟩
  · rw [if_neg hobj]
    by_cases hk : sget metric_map objective "average_delay" ∈
        ["average_delay", "co2_emissions", "total_travel_time"]
    · rw [if_pos hk, List.map_cons]
      exact ⟨_, rfl⟩
    · rw [if_neg hk, List.map_cons]
      exact ⟨_, rfl⟩

/-- Rounding to 2 decimals preserves the [0, 100] band. -/
lemma round2_bounds {x : ℚ} (h0 : 0 ≤ x) (h1 : x ≤ 100) :
    0 ≤ round2 x ∧ round2 x ≤ 100 := by
  unfold round2
  have hge : (0 : ℤ) ≤ round (x * 100) := by
    rw [round_eq]
    apply Int.le_floor.mpr
    push_cast
    linarith
  have hle : round (x * 100) ≤ 10000 := by
    rw [round_eq]
    have hfl := Int.floor_le (x * 100 + 1 / 2)
    have : ((⌊x * 100 + 1 / 2⌋ : ℤ) : ℚ) < 10001 := by linarith
    have hlt : ⌊x * 100 + 1 / 2⌋ < (10001 : ℤ) := by exact_mod_cast this
    omega
  have hgeQ : (0 : ℚ) ≤ ((round (x * 100) : ℤ) : ℚ) := by exact_mod_cast hge
  have hleQ : ((round (x * 100) : ℤ) : ℚ) ≤ 10000 := by exact_mod_cast hle
  constructor <;> linarith

end EvaluatorLemmas

end TrafficGen

open TrafficGen TrafficGen.MultiObjectiveOptimizer

/-- C6: the dominance relation used by the optimizer is irreflexive
(no objective vector dominates itself, so equal vectors dominate neither
each other) and asymmetric (if A dominates B then B does not dominate A). -/
theorem c6_dominance_irreflexive_asymmetric :
    (∀ a : List ℚ, dominatesB a a = false) ∧
    (∀ a b : List ℚ, a = b → dominatesB a b = false) ∧
    (∀ a b : List ℚ, dominatesB a b = true → dominatesB b a = false) := by
  refine ⟨dominatesB_self, ?_, dominatesB_asymm⟩
  intro a b hab
  rw [hab]
  exact dominatesB_self b

/-- Witness for C6 at concrete vectors. -/
theorem c6_dominance_irreflexive_asymmetric_witness :
    dominatesB [(1 : ℚ), 2] [2, 2] = true ∧ dominatesB [2, 2] [(1 : ℚ), 2] = false :=
  ⟨by decide, c6_dominance_irreflexive_asymmetric.2.2 [1, 2] [2, 2] (by decide)⟩

/-- C7: for every non-empty policy-to-metrics mapping the Pareto frontier
is non-empty, and a single policy is always alone on the frontier. -/
theorem c7_pareto_frontier_nonempty :
    (∀ pm : List (String × Metrics), pm ≠ [] →
        calculate_pareto_frontier pm ≠ []) ∧
    (∀ (name : String) (m : Metrics),
        calculate_pareto_frontier [(name, m)] = [name]) := by
  refine ⟨calculate_pareto_frontier_ne_nil, ?_⟩
  intro name m
  unfold calculate_pareto_frontier
  simp [List.range_succ]

/-- Witness for C7 at a concrete two-policy input. -/
theorem c7_pareto_frontier_nonempty_witness :
    calculate_pareto_frontier
      [("A", [("average_delay", (10 : ℚ))]), ("B", [("average_delay", (20 : ℚ))])] ≠ [] :=
  c7_pareto_frontier_nonempty.1 _ (by decide)

/-- C8: for every non-empty policy mapping and every (or no) supplied
reference point, `calculate_hypervolume` returns the fraction
`|pareto_front| / |all_policies|`, ignoring the reference point. -/
theorem c8_hypervolume_is_pareto_fraction
    (pm : List (String × Metrics)) (reference_point : Option (List ℚ))
    (hne : pm ≠ []) :
    calculate_hypervolume pm reference_point =
      some (((calculate_pareto_frontier pm).length : ℚ) / (pm.length : ℚ)) := by
  have hpar : calculate_pareto_frontier pm ≠ [] :=
    calculate_pareto_frontier_ne_nil pm hne
  have hparE : (calculate_pareto_frontier pm).isEmpty = false := by
    rw [List.isEmpty_eq_false]
    exact hpar
  unfold calculate_hypervolume
  cases reference_point with
  | some r => simp only [hparE, Bool.false_eq_true, if_false]
  | none =>
    obtain ⟨r, hr⟩ := refPointLoop_isSome pm hne objectives
    simp only [hr, hparE, Bool.false_eq_true, if_false]

/-- Witness for C8: two policies, one dominating the other, give 1/2. -/
theorem c8_hypervolume_is_pareto_fraction_witness :
    calculate_hypervolume
      [("A", [("average_delay", (10 : ℚ))]), ("B", [("average_delay", (20 : ℚ))])]
      none =
      some (((calculate_pareto_frontier
        [("A", [("average_delay", (10 : ℚ))]), ("B", [("average_delay", (20 : ℚ))])]).length : ℚ) /
        (([("A", [("average_delay", (10 : ℚ))]), ("B", [("average_delay", (20 : ℚ))])] :
          List (String × Metrics)).length : ℚ)) :=
  c8_hypervolume_is_pareto_fraction _ none (by decide)

/-- C1 counterexample: `rank_policies_by_dominance` is not dense ranking.
On three policies with dominance counts 0, 0, 2 the assigned ranks are
1, 1, 3: rank 2 is skipped, so the set of assigned ranks has a gap
(dense ranking would assign 1, 1, 2). -/
theorem c1_dense_rank_counterexample :
    rank_policies_by_dominance exC1 = [("A", 1), ("B", 1), ("C", 3)] ∧
    (rank_policies_by_dominance exC1).filter (fun pr => pr.2 == 2) = [] ∧
    (rank_policies_by_dominance exC1).filter (fun pr => pr.2 == 3) ≠ [] := by
  have h : rank_policies_by_dominance exC1 = [("A", 1), ("B", 1), ("C", 3)] := by
    unfold rank_policies_by_dominance
    rw [ranked_triples_exC1]
    decide
  exact ⟨h, by rw [h]; decide, by rw [h]; decide⟩

/-- C1 amended: any two policies with equal dominance counts receive the
same rank, but the ranking is competition-style, not dense: when the
dominance count strictly increases at sorted position `i`, the rank jumps
to `i + 1`, so assigned ranks may skip values (see the counterexample). -/
theorem c1_equal_dominance_counts_share_rank
    (pm : List (String × Metrics)) (p q : String) (c rp rq : ℕ)
    (hp : (p, c, rp) ∈ ranked_triples pm)
    (hq : (q, c, rq) ∈ ranked_triples pm) :
    rp = rq ∧ (p, rp) ∈ rank_policies_by_dominance pm ∧
      (p, c) ∈ dominance_count pm := by
  unfold ranked_triples at hp hq
  refine ⟨?_, ?_, ?_⟩
  · exact rankLoop_ties_share_rank _ 0 0 1 (sorted_counts_pairwise pm)
      p q c rp rq hp hq
  · unfold rank_policies_by_dominance ranked_triples
    exact List.mem_map_of_mem _ hp
  · have hmem := mem_of_mem_rankLoop _ _ _ _ _ _ _ hp
    exact List.mem_mergeSort.mp hmem

/-- Witness for C1 on `exC1`: policies A and B both have dominance count 0
and both receive rank 1. -/
theorem c1_equal_dominance_counts_share_rank_witness :
    ("A", 0, 1) ∈ ranked_triples exC1 ∧ ("B", 0, 1) ∈ ranked_triples exC1 ∧
    ((1 : ℕ) = 1 ∧ ("A", 1) ∈ rank_policies_by_dominance exC1 ∧
      ("A", 0) ∈ dominance_count exC1) := by
  refine ⟨?_, ?_, ?_⟩
  · rw [ranked_triples_exC1]; decide
  · rw [ranked_triples_exC1]; decide
  · exact c1_equal_dominance_counts_share_rank exC1 "A" "B" 0 1 1
      (by rw [ranked_triples_exC1]; decide) (by rw [ranked_triples_exC1]; decide)

open TrafficGen.PerformanceEvaluator TrafficGen.StatisticalAnalyzer

/-- C5: with the default weights, the composite score lies in [0, 100]
for every input metrics mapping: each metric is clamped to its fixed
range before normalization (with lower-is-better metrics inverted) and
the rounded weighted sum of sub-scores in [0, 100] stays in [0, 100]. -/
theorem c5_composite_score_bounded (m : Metrics) :
    0 ≤ calculate_composite_score m none ∧
      calculate_composite_score m none ≤ 100 := by
  rw [calculate_composite_score_eq]
  obtain ⟨d0, d1⟩ := normalized_average_delay_bounds m
  obtain ⟨t0, t1⟩ := normalized_throughput_bounds m
  obtain ⟨e0, e1⟩ := normalized_co2_emissions_bounds m
  obtain ⟨s0, s1⟩ := normalized_average_speed_bounds m
  exact round2_bounds (by linarith) (by linarith)

/-- C9: comparing a metric set with itself yields, for every key, zero
absolute change, zero percent change and `is_improvement = false`; and
with a zero baseline the percent change is 0 when the policy value is 0
and 100 otherwise, with no division-by-zero failure. -/
theorem c9_self_comparison_and_zero_baseline :
    (∀ M : Metrics, (M.map Prod.fst).Nodup →
      compare_policies M M =
        some (M.map fun p => (p.1, ⟨p.2, p.2, 0, 0, false⟩))) ∧
    (∀ baseline_value policy_value : ℚ, baseline_value = 0 →
      percent_change_of baseline_value policy_value =
        if policy_value = 0 then 0 else 100) := by
  constructor
  · intro M hnd
    exact compare_policies_of_find M M (find?_eq_self_of_nodup M hnd)
  · intro bv pv h
    subst h
    unfold percent_change_of
    rw [if_neg (by simp)]

/-- Witness for C9 at a concrete two-metric set and a zero baseline. -/
theorem c9_self_comparison_and_zero_baseline_witness :
    ((([("average_delay", (3 : ℚ)), ("throughput", 5)] : Metrics).map
        Prod.fst).Nodup ∧
      compare_policies [("average_delay", (3 : ℚ)), ("throughput", 5)]
          [("average_delay", (3 : ℚ)), ("throughput", 5)] =
        some (([("average_delay", (3 : ℚ)), ("throughput", 5)] : Metrics).map
          fun p => (p.1, ⟨p.2, p.2, 0, 0, false⟩))) ∧
    ((0 : ℚ) = 0 ∧
      percent_change_of 0 7 = if (7 : ℚ) = 0 then 0 else 100) :=
  ⟨⟨by decide, c9_self_comparison_and_zero_baseline.1 _ (by decide)⟩,
   ⟨rfl, c9_self_comparison_and_zero_baseline.2 0 7 rfl⟩⟩

/-- C10: a missing metric key is substituted before clamping with a
per-metric default — 150 for delay and 500 for emissions (mid-range
sub-score 50), 0 for throughput and speed (sub-score 0) — so a metrics
mapping missing all four keys scores 25 under the default weights. -/
theorem c10_missing_key_defaults :
    (∀ m : Metrics, m.find? (fun p => p.1 == "average_delay") = none →
      normalized_average_delay m = 50) ∧
    (∀ m : Metrics, m.find? (fun p => p.1 == "co2_emissions") = none →
      normalized_co2_emissions m = 50) ∧
    (∀ m : Metrics, m.find? (fun p => p.1 == "throughput") = none →
      normalized_throughput m = 0) ∧
    (∀ m : Metrics, m.find? (fun p => p.1 == "average_speed") = none →
      normalized_average_speed m = 0) ∧
    calculate_composite_score [] none = 25 := by
  have hdelay : ∀ m : Metrics,
      m.find? (fun p => p.1 == "average_delay") = none →
      normalized_average_delay m = 50 := by
    intro m h
    unfold normalized_average_delay dget
    rw [h]
    norm_num
  have hco2 : ∀ m : Metrics,
      m.find? (fun p => p.1 == "co2_emissions") = none →
      normalized_co2_emissions m = 50 := by
    intro m h
    unfold normalized_co2_emissions dget
    rw [h]
    norm_num
  have hthr : ∀ m : Metrics,
      m.find? (fun p => p.1 == "throughput") = none →
      normalized_throughput m = 0 := by
    intro m h
    unfold normalized_throughput dget
    rw [h]
    norm_num
  have hspd : ∀ m : Metrics,
      m.find? (fun p => p.1 == "average_speed") = none →
      normalized_average_speed m = 0 := by
    intro m h
    unfold normalized_average_speed dget
    rw [h]
    norm_num
  refine ⟨hdelay, hco2, hthr, hspd, ?_⟩
  rw [calculate_composite_score_eq, hdelay [] rfl, hco2 [] rfl,
    hthr [] rfl, hspd [] rfl]
  norm_num [round2, round_eq]

/-- Witness for C10 at the empty metrics mapping. -/
theorem c10_missing_key_defaults_witness :
    ([] : Metrics).find? (fun p => p.1 == "average_delay") = none ∧
    normalized_average_delay [] = 50 :=
  ⟨rfl, c10_missing_key_defaults.1 [] rfl⟩

/-- C2 counterexample: a non-empty mapping with a malformed objective or
a policy missing the required metric key does not fail: an unknown
objective silently falls back to ranking by `average_delay` and returns a
policy, and a missing metric key is silently treated as infinity. -/
theorem c2_silent_default_counterexample :
    ([("A", [("average_delay", (10 : ℚ))])] : List (String × Metrics)) ≠ [] ∧
    identify_best_policy [("A", [("average_delay", (10 : ℚ))])]
      "unknown_objective" = some "A" ∧
    identify_best_policy [("A", []), ("B", [("average_delay", (5 : ℚ))])]
      "delay" = some "B" :=
  ⟨by decide, by decide, by decide⟩

/-- C2 amended: `identify_best_policy` returns null exactly when the
mapping is empty; but for a non-empty mapping, malformed input never
fails loudly: an objective outside the defined set behaves exactly like
`"delay"` (the `average_delay` fallback), and missing metric keys are
silently defaulted (counterexample above). -/
theorem c2_best_policy_null_only_when_empty
    (results_dict : List (String × Metrics)) (objective : String) :
    (identify_best_policy results_dict objective = none ↔
      results_dict = []) ∧
    (objective ≠ "composite" →
      metric_map.find? (fun p => p.1 == objective) = none →
      identify_best_policy results_dict objective =
        identify_best_policy results_dict "delay") := by
  constructor
  · cases results_dict with
    | nil => simp [identify_best_policy]
    | cons r rs =>
      obtain ⟨s, hs⟩ := identify_best_policy_isSome r rs objective
      rw [hs]
      simp
  · intro hobj hfind
    have hkey : sget metric_map objective "average_delay" =
        "average_delay" := by
      unfold sget
      rw [hfind]
    have hkey2 : sget metric_map "delay" "average_delay" =
        "average_delay" := by decide
    unfold identify_best_policy
    rw [hkey, hkey2, if_neg hobj,
      if_neg (show ¬("delay" = "composite") by decide)]

/-- Witness for C2 at a concrete non-empty mapping and unknown objective. -/
theorem c2_best_policy_null_only_when_empty_witness :
    (identify_best_policy [("A", [("average_delay", (10 : ℚ))])]
        "unknown_objective" = none ↔
      ([("A", [("average_delay", (10 : ℚ))])] :
        List (String × Metrics)) = []) ∧
    ("unknown_objective" ≠ "composite" ∧
      metric_map.find? (fun p => p.1 == "unknown_objective") = none ∧
      identify_best_policy [("A", [("average_delay", (10 : ℚ))])]
          "unknown_objective" =
        identify_best_policy [("A", [("average_delay", (10 : ℚ))])]
          "delay") := by
  have h := c2_best_policy_null_only_when_empty
    [("A", [("average_delay", (10 : ℚ))])] "unknown_objective"
  exact ⟨h.1, by decide, by decide, h.2 (by decide) (by decide)⟩

/-- C3 counterexample: with a single policy group, `perform_anova`
silently returns an empty result mapping — every per-metric test is simply
omitted — rather than raising a descriptive validation error. -/
theorem c3_single_group_counterexample :
    perform_anova (fun _ => (0, 0))
      [("P1", [[("average_delay", (1 : ℚ))]])] = [] := by decide

/-- C3 amended: when fewer than 2 policy groups are supplied,
`perform_anova` silently returns an empty result (the per-metric guard
fails for every metric, so every test is omitted); it does not raise or
report an error. -/
theorem c3_anova_few_groups_silently_empty
    (f_oneway : List (List ℚ) → ℚ × ℚ)
    (results : List (String × List Metrics))
    (h : results.length ≤ 1) :
    perform_anova f_oneway results = [] := by
  unfold perform_anova
  rw [List.filterMap_eq_nil_iff]
  intro metric _
  dsimp only
  rw [if_neg]
  rintro ⟨h1, -⟩
  rw [List.length_map] at h1
  omega

/-- Witness for C3 at the empty policy mapping. -/
theorem c3_anova_few_groups_silently_empty_witness :
    ([] : List (String × List Metrics)).length ≤ 1 ∧
    perform_anova (fun _ => (0, 0)) [] = [] :=
  ⟨by decide, c3_anova_few_groups_silently_empty _ [] (by decide)⟩

/-- C4: every entry produced by `perform_anova` carries a significance
flag equal to exactly `p_value < 0.05` (the code computes the threshold
as `1 - confidence_level` with `confidence_level = 0.95`, which is
exactly 5/100 in exact arithmetic) and an interpretation tier chosen by
the exact thresholds p < 0.001, p < 0.01, p < 0.05. -/
theorem c4_significance_flag_and_tiers
    (f_oneway : List (List ℚ) → ℚ × ℚ)
    (results : List (String × List Metrics))
    (metric : String) (e : AnovaEntry)
    (h : (metric, e) ∈ perform_anova f_oneway results) :
    (e.significant = true ↔ e.p_value < 5 / 100) ∧
    e.interpretation =
      (if e.p_value < 1 / 1000 then
        "Highly significant difference between policies (p < 0.001)"
      else if e.p_value < 1 / 100 then
        "Very significant difference between policies (p < 0.01)"
      else if e.p_value < 5 / 100 then
        "Significant difference between policies (p < 0.05)"
      else
        "No significant difference between policies (p >= 0.05)") := by
  unfold perform_anova at h
  obtain ⟨a, hmem, hsome⟩ := List.mem_filterMap.mp h
  dsimp only at hsome
  by_cases hc : 1 < (results.map fun pr => pr.2.map fun m => dget m a 0).length ∧
      ∀ data ∈ results.map fun pr => pr.2.map fun m => dget m a 0,
        0 < data.length
  · rw [if_pos hc] at hsome
    injection hsome with hpair
    simp only [Prod.mk.injEq] at hpair
    obtain ⟨-, hee⟩ := hpair
    rw [← hee]
    constructor
    · simp only [decide_eq_true_eq]
      unfold confidence_level
      norm_num
    · rfl
  · rw [if_neg hc] at hsome
    exact absurd hsome (by simp)

/-- Witness for C4 at a concrete two-policy input with p-value 0.02. -/
theorem c4_significance_flag_and_tiers_witness :
    ("average_delay",
      ({ f_statistic := 2, p_value := 1 / 50, significant := true,
         interpretation :=
           "Significant difference between policies (p < 0.05)" } :
        AnovaEntry)) ∈
      perform_anova (fun _ => (2, 1 / 50))
        [("P1", [[("average_delay", (1 : ℚ))]]),
         ("P2", [[("average_delay", (2 : ℚ))]])] ∧
    ((true = true ↔ (1 / 50 : ℚ) < 5 / 100) ∧
      "Significant difference between policies (p < 0.05)" =
        (if (1 / 50 : ℚ) < 1 / 1000 then
          "Highly significant difference between policies (p < 0.001)"
        else if (1 / 50 : ℚ) < 1 / 100 then
          "Very significant difference between policies (p < 0.01)"
        else if (1 / 50 : ℚ) < 5 / 100 then
          "Significant difference between policies (p < 0.05)"
        else
          "No significant difference between policies (p >= 0.05)")) := by
  have hsig : (decide ((1 : ℚ) / 50 < 1 - confidence_level)) = true := by
    rw [decide_eq_true_eq]
    unfold confidence_level
    norm_num
  have hint : interpret_anova ((1 : ℚ) / 50) =
      "Significant difference between policies (p < 0.05)" := by
    unfold interpret_anova
    norm_num
  have hmem : ("average_delay",
      ({ f_statistic := 2, p_value := 1 / 50, significant := true,
         interpretation :=
           "Significant difference between policies (p < 0.05)" } :
        AnovaEntry)) ∈
      perform_anova (fun _ => (2, 1 / 50))
        [("P1", [[("average_delay", (1 : ℚ))]]),
         ("P2", [[("average_delay", (2 : ℚ))]])] := by
    apply List.mem_filterMap.mpr
    refine ⟨"average_delay", by decide, ?_⟩
    dsimp only
    rw [if_pos (by decide)]
    rw [hsig, hint]
  exact ⟨hmem,
    c4_significance_flag_and_tiers (fun _ => (2, 1 / 50))
      [("P1", [[("average_delay", (1 : ℚ))]]),
       ("P2", [[("average_delay", (2 : ℚ))]])]
      "average_delay" _ hmem⟩
